import Mathlib

/-
Verification of the mpc remote-signing keystore (go-eth2-wallet-mpc).

The development shallow-embeds the Go sources:
  * account.go            — the account state machine, JSON (un)marshalling
  * key_service.go        — the key-service HTTP client, in its two surviving
                            shapes: the cached-public-key variant and the
                            URL-only variant.
Bytes are lists of naturals (< 256), JSON documents are association lists of
string keys to JSON values (Go decodes into map[string]interface{}; numbers
arrive as float64, modelled as rationals), and the HTTP layer is an oracle
function from the request the client sends to the outcome the client observes.
-/

namespace Mpc

abbrev Bytes := List Nat

/-! ### Hex encoding (encoding/hex, fmt %x) -/

/-- Value of one hex digit, accepting both cases, as hex.DecodeString does. -/
def hexDigitVal? (c : Char) : Option Nat :=
  if '0' ≤ c ∧ c ≤ '9' then some (c.toNat - '0'.toNat)
  else if 'a' ≤ c ∧ c ≤ 'f' then some (c.toNat - 'a'.toNat + 10)
  else if 'A' ≤ c ∧ c ≤ 'F' then some (c.toNat - 'A'.toNat + 10)
  else none

/-- Lowercase hex digit for a nibble, as fmt %x prints. -/
def hexDigitChar (n : Nat) : Char :=
  if n < 10 then Char.ofNat ('0'.toNat + n) else Char.ofNat ('a'.toNat + n - 10)

/-- fmt.Sprintf("%x", bytes): two lowercase digits per byte. -/
def hexEncodeList : Bytes → List Char
  | [] => []
  | b :: bs => hexDigitChar (b / 16) :: hexDigitChar (b % 16) :: hexEncodeList bs

def hexEncode (bs : Bytes) : String := ⟨hexEncodeList bs⟩

/-- hex.DecodeString: fails on odd length or a non-hex digit. -/
def hexDecodeList : List Char → Option Bytes
  | [] => some []
  | [_] => none
  | c1 :: c2 :: rest =>
    match hexDigitVal? c1, hexDigitVal? c2, hexDecodeList rest with
    | some h, some l, some tail => some ((16 * h + l) :: tail)
    | _, _, _ => none

def hexDecode (s : String) : Option Bytes := hexDecodeList s.data

theorem hexDigitVal_hexDigitChar : ∀ n < 16, hexDigitVal? (hexDigitChar n) = some n := by
  decide

theorem hexDecodeList_hexEncodeList (bs : Bytes) (h : ∀ b ∈ bs, b < 256) :
    hexDecodeList (hexEncodeList bs) = some bs := by
  induction bs with
  | nil => rfl
  | cons b bs ih =>
    have hb : b < 256 := h b (List.mem_cons_self _ _)
    have h1 : b / 16 < 16 := by omega
    have h2 : b % 16 < 16 := Nat.mod_lt _ (by omega)
    simp only [hexEncodeList, hexDecodeList,
      hexDigitVal_hexDigitChar _ h1, hexDigitVal_hexDigitChar _ h2,
      ih (fun x hx => h x (List.mem_cons_of_mem _ hx))]
    have : 16 * (b / 16) + b % 16 = b := by omega
    rw [this]

theorem hexDecode_hexEncode (bs : Bytes) (h : ∀ b ∈ bs, b < 256) :
    hexDecode (hexEncode bs) = some bs := by
  simpa [hexDecode, hexEncode] using hexDecodeList_hexEncodeList bs h

/-! ### UUIDs (github.com/google/uuid)

A UUID is modelled by its canonical string form.  uuid.Parse is modelled on
the plain 36-character 8-4-4-4-12 form, case-insensitively, normalising to
lowercase exactly as Go stores the bytes and re-renders them with String().
(The urn: and braced forms Go also accepts are outside the model.) -/

def isHexDigitChar (c : Char) : Bool := (hexDigitVal? c).isSome

/-- Lowercase an uppercase hex digit, leave anything else alone. -/
def lowerHexChar (c : Char) : Char :=
  if 'A' ≤ c ∧ c ≤ 'F' then Char.ofNat (c.toNat + 32) else c

/-- The 8-4-4-4-12 canonical shape: dashes at 8, 13, 18, 23, hex elsewhere. -/
def uuidFormatOk (s : String) : Bool :=
  s.data.length = 36 &&
    (List.range 36).all fun i =>
      if i = 8 || i = 13 || i = 18 || i = 23 then s.data.getD i ' ' = '-'
      else isHexDigitChar (s.data.getD i ' ')

def uuidParse (s : String) : Option String :=
  if uuidFormatOk s then some ⟨s.data.map lowerHexChar⟩ else none

/-- Canonical (already lowercase) UUID string, the output shape of String(). -/
def canonicalUuid (s : String) : Bool :=
  uuidFormatOk s && s.data.all fun c => lowerHexChar c == c

theorem map_lowerHexChar_id (l : List Char)
    (h : (l.all fun c => lowerHexChar c == c) = true) :
    l.map lowerHexChar = l := by
  induction l with
  | nil => rfl
  | cons c l ih =>
    rw [List.all_cons, Bool.and_eq_true] at h
    rw [List.map_cons, ih h.2, beq_iff_eq.mp h.1]

theorem uuidParse_canonical (s : String) (h : canonicalUuid s = true) :
    uuidParse s = some s := by
  rw [canonicalUuid, Bool.and_eq_true] at h
  rw [uuidParse, if_pos h.1, map_lowerHexChar_id s.data h.2]

/-! ### URLs (net/url)

url.URL is modelled by its string rendering; IsAbs() is "the string carries a
scheme": an initial letter followed by scheme characters up to a colon
(Go's getScheme; a non-scheme character before the colon means the string is
a relative path and there is no scheme). -/

def isSchemeChar (c : Char) : Bool :=
  c.isAlpha || c.isDigit || c = '+' || c = '-' || c = '.'

def schemeColon : List Char → Bool
  | [] => false
  | c :: rest => if c = ':' then true else isSchemeChar c && schemeColon rest

def goUrlIsAbs (s : String) : Bool :=
  match s.data with
  | [] => false
  | c :: rest => c.isAlpha && schemeColon rest

/-! ### keyService, URL-only variant (the one account.go is glued to)

type keyService struct { URL *url.URL } -/

structure KeyService where
  URL : String
  deriving DecidableEq

/-- newKeyService: reject a non-absolute URL, naming it in the error. -/
def newKeyService (u : String) : Except String KeyService :=
  if goUrlIsAbs u then .ok ⟨u⟩
  else .error ("keyService URL \x27" ++ u ++ "\x27 is not absolute")

/-! ### keyService, cached-public-key variant

type keyService struct { url *url.URL; publicKey etypes.PublicKey; version uint } -/

structure KeyServiceCached where
  url : String
  publicKey : Bytes
  version : Nat
  deriving DecidableEq

/-- BLSPublicKeyFromBytes, shallowly: the 48-byte length gate stands in for
the curve-point validity check done by go-eth2-types. -/
def blsPublicKeyFromBytes (bs : Bytes) : Except String Bytes :=
  if bs.length = 48 then .ok bs else .error "public key must be 48 bytes"

/-- BLSSignatureFromBytes, shallowly: the 96-byte length gate stands in for
the curve-point validity check done by go-eth2-types. -/
def blsSignatureFromBytes (bs : Bytes) : Except String Bytes :=
  if bs.length = 96 then .ok bs else .error "signature must be 96 bytes"

/-- PublicKey() of the cached variant.  The whole network fetch in the source
is commented out; the method returns a copy of the stored key (the decode
error on re-decoding an already-valid key is discarded in the source). -/
def KeyServiceCached.PublicKey (ks : KeyServiceCached) : Bytes := ks.publicKey

/-- PublicKey() of the cached variant, instrumented with the list of HTTP
requests the call issues — none, since the fetch path is commented out. -/
def KeyServiceCached.PublicKeyWith (ks : KeyServiceCached) :
    Except String Bytes × List String :=
  (.ok ks.PublicKey, [])

/-- What the client observes about one GET round trip: a transport failure,
a body json.Unmarshal rejects, or the parsed pk field (empty when absent). -/
inductive GetNetOutcome
  | transportError (e : String)
  | malformedJSON
  | pkField (s : String)

/-- PublicKey() of the URL-only variant: GET the endpoint root, decode the
hex pk field.  Every call issues the request; nothing is cached.
"invalid character in JSON" and "invalid hex" stand in for the error strings
of encoding/json and encoding/hex. -/
def KeyService.PublicKeyWith (ks : KeyService) (net : String → GetNetOutcome) :
    Except String Bytes × List String :=
  match net ks.URL with
  | .transportError e => (.error e, [ks.URL])
  | .malformedJSON => (.error "invalid character in JSON", [ks.URL])
  | .pkField s =>
    if s = "" then (.error "missing public key", [ks.URL])
    else
      match hexDecode s with
      | none => (.error "invalid hex", [ks.URL])
      | some bs => (blsPublicKeyFromBytes bs, [ks.URL])

/-- The JSON body of a sign request: {"payload": <payload-as-string>,
"domain": <domain>} (the %s rendering of the payload is byte-identical). -/
structure SignReqBody where
  payload : Bytes
  domain : Nat
  deriving DecidableEq

/-- One POST the cached-variant Sign issues: the resolved path "/<hex pk>"
and the marshalled body. -/
structure PostRequest where
  path : String
  body : SignReqBody
  deriving DecidableEq

/-- What the client observes about one POST round trip. -/
inductive SignNetOutcome
  | transportError (e : String)
  | malformedJSON
  | signField (s : String)

/-- Sign() of the cached variant: marshal {"payload", "domain"}, POST to
"/<hex pk>" resolved against the base URL, demand a non-empty "sign" field,
hex-decode it into a BLS signature.  Instrumented with the (single) request
issued.  "invalid character in JSON" / "invalid hex" stand in for the
encoding/json and encoding/hex error strings. -/
def KeyServiceCached.signRequest (ks : KeyServiceCached)
    (payload : Bytes) (domain : Nat) : PostRequest :=
  { path := "/" ++ hexEncode ks.PublicKey
    body := { payload := payload, domain := domain } }

def KeyServiceCached.SignWith (ks : KeyServiceCached)
    (net : PostRequest → SignNetOutcome) (payload : Bytes) (domain : Nat) :
    Except String Bytes × List PostRequest :=
  match net (ks.signRequest payload domain) with
  | .transportError e => (.error e, [ks.signRequest payload domain])
  | .malformedJSON =>
    (.error "invalid character in JSON", [ks.signRequest payload domain])
  | .signField s =>
    if s = "" then (.error "missing signature", [ks.signRequest payload domain])
    else
      match hexDecode s with
      | none => (.error "invalid hex", [ks.signRequest payload domain])
      | some bs => (blsSignatureFromBytes bs, [ks.signRequest payload domain])

/-! ### JSON documents

Go's custom unmarshallers decode into map[string]interface{}: strings arrive
as string, numbers as float64 (modelled as rationals), booleans as bool.
A document is an association list keyed by the first match. -/

inductive JValue
  | str (s : String)
  | num (q : ℚ)
  | bool (b : Bool)
  | null
  deriving DecidableEq

abbrev JObj := List (String × JValue)

def jLookup (v : JObj) (k : String) : Option JValue :=
  (v.find? fun p => p.1 == k).map (·.2)

/-- Go's non-constant float64 → uint conversion truncates toward zero: for a
non-negative value this is numerator-over-denominator natural division (the
conversion is undefined in Go for negative or out-of-range operands; a
negative operand clamps to 0 here). -/
def goUintOfNum (q : ℚ) : Nat := q.num.toNat / q.den

theorem goUintOfNum_natCast (n : Nat) : goUintOfNum (n : ℚ) = n := by
  simp [goUintOfNum, Rat.num_natCast, Rat.den_natCast]

/-! ### Account (account.go) -/

/-- The encryptor chosen at deserialization: keystorev4 is the only scheme. -/
inductive Encryptor
  | keystorev4
  deriving DecidableEq

/-- account: UUID identity (canonical string form), display name, 48-byte
compressed public key, keystore-scheme version, the lock flag, and the bound
key service (none on a freshly zeroed account).  The wallet back-reference
and the mutex are not part of the value model; the reader/writer lock only
serialises access to the unlocked flag. -/
structure Account where
  id : String
  name : String
  publicKey : Bytes
  version : Nat
  encryptor : Option Encryptor
  unlocked : Bool
  keyService : Option KeyService
  deriving DecidableEq

/-- newAccount: the zero value of every field — in particular the zero UUID
and a false (Locked) unlocked flag. -/
def newAccount : Account :=
  { id := "00000000-0000-0000-0000-000000000000"
    name := ""
    publicKey := []
    version := 0
    encryptor := none
    unlocked := false
    keyService := none }

/-- MarshalJSON: uuid, name, lower-hex pubkey, version, keyService URL.
(A nil keyService would panic in Go; the model renders it as "".) -/
def Account.MarshalJSON (a : Account) : JObj :=
  [("uuid", .str a.id),
   ("name", .str a.name),
   ("pubkey", .str (hexEncode a.publicKey)),
   ("version", .num (a.version : ℚ)),
   ("keyService", .str ((a.keyService.map KeyService.URL).getD ""))]

/-- The identity block of UnmarshalJSON: a "uuid" key, else the legacy "id"
key ("Used to be ID; remove with V2.0"), else "account ID missing".
"invalid UUID format" stands in for uuid.Parse's error strings. -/
def readAccountId (v : JObj) : Except String String :=
  match jLookup v "uuid" with
  | some val =>
    match val with
    | .str idStr =>
      match uuidParse idStr with
      | some id => .ok id
      | none => .error "invalid UUID format"
    | _ => .error "account ID invalid"
  | none =>
    match jLookup v "id" with
    | some val =>
      match val with
      | .str idStr =>
        match uuidParse idStr with
        | some id => .ok id
        | none => .error "invalid UUID format"
      | _ => .error "account ID invalid"
    | none => .error "account ID missing"

def readName (v : JObj) : Except String String :=
  match jLookup v "name" with
  | some (.str s) => .ok s
  | some _ => .error "account name invalid"
  | none => .error "account name missing"

/-- The pubkey block: a string, hex-decoded, then through
BLSPublicKeyFromBytes.  "invalid hex" stands in for hex.DecodeString's error. -/
def readPubkey (v : JObj) : Except String Bytes :=
  match jLookup v "pubkey" with
  | some (.str s) =>
    (match hexDecode s with
     | some bs => blsPublicKeyFromBytes bs
     | none => .error "invalid hex")
  | some _ => .error "account pubkey invalid"
  | none => .error "account pubkey missing"

/-- The version block: the value must be a JSON number (float64 in Go),
converted to uint by truncation. -/
def readVersion (v : JObj) : Except String Nat :=
  match jLookup v "version" with
  | some (.num q) => .ok (goUintOfNum q)
  | some _ => .error "account version invalid"
  | none => .error "account version missing"

/-- "Only support keystorev4 at current...": version 4 selects the
keystorev4 encryptor, anything else is rejected. -/
def checkVersion (n : Nat) : Except String Encryptor :=
  if n = 4 then .ok .keystorev4 else .error "unsupported keystore version"

/-- The keyService block: a string URL handed to newKeyService. -/
def readKeyService (v : JObj) : Except String KeyService :=
  match jLookup v "keyService" with
  | some (.str s) => newKeyService s
  | some _ => .error "account keyService invalid"
  | none => .error "account keyService missing"

/-- UnmarshalJSON: the field blocks in source order — identity, name,
pubkey, version, the version-4 gate selecting the encryptor, keyService —
the first failing block's error propagating unchanged.  The lock flag is
never touched. -/
def Account.UnmarshalJSON (a : Account) (v : JObj) : Except String Account :=
  match readAccountId v with
  | .error e => .error e
  | .ok id =>
    match readName v with
    | .error e => .error e
    | .ok name =>
      match readPubkey v with
      | .error e => .error e
      | .ok publicKey =>
        match readVersion v with
        | .error e => .error e
        | .ok version =>
          match checkVersion version with
          | .error e => .error e
          | .ok enc =>
            match readKeyService v with
            | .error e => .error e
            | .ok ks =>
              .ok { a with
                    id := id, name := name, publicKey := publicKey,
                    version := version, encryptor := some enc,
                    keyService := some ks }

/-- deserializeAccount: a fresh newAccount run through UnmarshalJSON
(the wallet back-reference and the wallet's encryptor, both overwritten or
unused by the claims here, are outside the model). -/
def deserializeAccount (v : JObj) : Except String Account :=
  Account.UnmarshalJSON newAccount v

/-- Lock: exclusive-lock write of the flag. -/
def Account.Lock (a : Account) : Account := { a with unlocked := false }

/-- Unlock: exclusive-lock write of the flag; the passphrase is accepted and
ignored, and no error is ever returned. -/
def Account.Unlock (a : Account) (_passphrase : Bytes) : Option String × Account :=
  (none, { a with unlocked := true })

def Account.IsUnlocked (a : Account) : Bool := a.unlocked

/-- The call account.Sign forwards to the bound key service:
a.keyService.Sign(a.publicKey, data) — the account's own public key and the
payload.  The domain argument of account.Sign is not part of the call. -/
structure KsSignCall where
  pubkey : Bytes
  payload : Bytes
  deriving DecidableEq

/-- Sign: under the shared lock, fail when locked, otherwise forward to the
bound key service.  The ksSign oracle stands for the keyService.Sign round
trip; the third component lists the key-service calls made.  The domain
parameter is unused, exactly as in the source, which forwards only
(a.publicKey, data). -/
def Account.Sign (a : Account) (ksSign : KsSignCall → Except String Bytes)
    (data : Bytes) (_domain : Nat) :
    Except String Bytes × Account × List KsSignCall :=
  if !a.IsUnlocked then
    (.error "cannot sign when account is locked", a, [])
  else
    (ksSign { pubkey := a.publicKey, payload := data }, a,
     [{ pubkey := a.publicKey, payload := data }])

/-- PrivateKey: the source line is `return nil` for a (PrivateKey, error)
result pair — one value where two are required, a compile slip.  The literal
result is modelled as a nil key together with a nil error. -/
def Account.PrivateKey (_a : Account) : Option Bytes × Option String :=
  (none, none)

/-- A concrete, well-formed account used by witnesses. -/
def sampleAccount : Account :=
  { id := "00010203-0405-0607-0809-0a0b0c0d0e0f"
    name := "Account 1"
    publicKey := List.replicate 48 0
    version := 4
    encryptor := some .keystorev4
    unlocked := false
    keyService := some ⟨"http://localhost:8080"⟩ }

/-- A concrete, well-formed serialized account record. -/
def sampleRecord : JObj :=
  [("uuid", .str "00010203-0405-0607-0809-0a0b0c0d0e0f"),
   ("name", .str "Account 1"),
   ("pubkey", .str (hexEncode (List.replicate 48 0))),
   ("version", .num 4),
   ("keyService", .str "http://localhost:8080")]

/-- The account sampleRecord deserializes to. -/
def sampleDeserialized : Account :=
  { newAccount with
    id := "00010203-0405-0607-0809-0a0b0c0d0e0f"
    name := "Account 1"
    publicKey := List.replicate 48 0
    version := 4
    encryptor := some .keystorev4
    keyService := some ⟨"http://localhost:8080"⟩ }

/-! ### Claim theorems -/

/-- C4: for every absolute URL the constructor succeeds and keeps the URL
unchanged; for every non-absolute URL string (the empty string included) it
fails with exactly the message naming the literal input. -/
theorem newKeyService_absolute_check (u : String) :
    (goUrlIsAbs u = true → newKeyService u = .ok ⟨u⟩) ∧
    (goUrlIsAbs u = false →
      newKeyService u =
        .error ("keyService URL \x27" ++ u ++ "\x27 is not absolute")) := by
  constructor
  · intro h
    rw [newKeyService, if_pos h]
  · intro h
    rw [newKeyService, if_neg (by simp [h])]

theorem newKeyService_absolute_check_witness :
    newKeyService "http://localhost:8080" = .ok ⟨"http://localhost:8080"⟩ ∧
    newKeyService "localhost" =
      .error ("keyService URL \x27" ++ "localhost" ++ "\x27 is not absolute") ∧
    newKeyService "" =
      .error ("keyService URL \x27" ++ "" ++ "\x27 is not absolute") :=
  ⟨(newKeyService_absolute_check "http://localhost:8080").1 (by decide),
   (newKeyService_absolute_check "localhost").2 (by decide),
   (newKeyService_absolute_check "").2 (by decide)⟩

/-- C8: Unlock always succeeds (no error) and leaves the account Unlocked;
Lock and Unlock are idempotent — on an already-Locked account Lock is a
no-op, and on an already-Unlocked account Unlock is a no-op. -/
theorem lock_unlock_idempotent (a : Account) (p : Bytes) :
    (Account.Unlock a p).1 = none ∧
    (Account.Unlock a p).2 = { a with unlocked := true } ∧
    Account.Lock a = { a with unlocked := false } ∧
    (a.unlocked = false → Account.Lock a = a) ∧
    (a.unlocked = true → (Account.Unlock a p).2 = a) := by
  refine ⟨rfl, rfl, rfl, ?_, ?_⟩
  · intro h
    cases a
    simp_all [Account.Lock]
  · intro h
    cases a
    simp_all [Account.Unlock]

theorem lock_unlock_idempotent_witness :
    Account.Lock sampleAccount = sampleAccount ∧
    (Account.Unlock { sampleAccount with unlocked := true } []).2 =
      { sampleAccount with unlocked := true } :=
  ⟨(lock_unlock_idempotent sampleAccount []).2.2.2.1 rfl,
   (lock_unlock_idempotent { sampleAccount with unlocked := true } []).2.2.2.2 rfl⟩

/-- C9: the code of PrivateKey, evaluated on a concrete account.  The source
line `return nil` yields a nil key with NO error value (it is in fact a Go
compile slip: one value returned for a two-value result), while the spec
says PrivateKey always fails with an error. -/
theorem privateKey_returns_no_error :
    Account.PrivateKey sampleAccount = (none, none) := rfl

/-- C1: a freshly constructed account and a freshly deserialized account are
Locked; Sign on a Locked account fails with exactly the locked-error
message, leaves the account unchanged and makes no key-service call; Sign on
an Unlocked account forwards to the bound key service with the account's own
public key (one call). -/
theorem account_sign_lock_gate (a : Account)
    (ksSign : KsSignCall → Except String Bytes) (data : Bytes) (domain : Nat) :
    newAccount.unlocked = false ∧
    (∀ v a', deserializeAccount v = .ok a' → a'.unlocked = false) ∧
    (a.unlocked = false →
      Account.Sign a ksSign data domain =
        (.error "cannot sign when account is locked", a, [])) ∧
    (a.unlocked = true →
      Account.Sign a ksSign data domain =
        (ksSign { pubkey := a.publicKey, payload := data }, a,
         [{ pubkey := a.publicKey, payload := data }])) := by
  refine ⟨rfl, ?_, ?_, ?_⟩
  · intro v a' h
    rw [deserializeAccount, Account.UnmarshalJSON.eq_def] at h
    repeat' split at h
    any_goals exact Except.noConfusion h
    injection h with h
    subst h
    rfl
  · intro h
    simp [Account.Sign, Account.IsUnlocked, h]
  · intro h
    simp [Account.Sign, Account.IsUnlocked, h]

theorem account_sign_lock_gate_witness :
    Account.Sign sampleAccount (fun _ => .ok (List.replicate 96 1)) [97] 0 =
      (.error "cannot sign when account is locked", sampleAccount, []) ∧
    Account.Sign { sampleAccount with unlocked := true }
        (fun _ => .ok (List.replicate 96 1)) [97] 0 =
      (.ok (List.replicate 96 1), { sampleAccount with unlocked := true },
       [{ pubkey := sampleAccount.publicKey, payload := [97] }]) ∧
    sampleDeserialized.unlocked = false :=
  ⟨(account_sign_lock_gate sampleAccount _ [97] 0).2.2.1 rfl,
   (account_sign_lock_gate { sampleAccount with unlocked := true } _ [97] 0).2.2.2 rfl,
   (account_sign_lock_gate sampleAccount (fun _ => .ok []) [] 0).2.1
     sampleRecord sampleDeserialized rfl⟩

/-- C2: the code of account.Sign, evaluated at a failing input.  The source
forwards a.keyService.Sign(a.publicKey, data), dropping the domain argument:
the forwarded key-service call — and hence the JSON sign-request body built
from it — is identical for domain 42 and domain 0, so the body cannot
contain the given domain tag, contrary to the claim (and to the repository's
own tests, which pass the domain to keyService.Sign and verify against it). -/
theorem account_sign_ignores_domain :
    (Account.Sign { sampleAccount with unlocked := true }
        (fun _ => .ok []) [97, 98, 99, 100] 42).2.2 =
      [{ pubkey := sampleAccount.publicKey, payload := [97, 98, 99, 100] }] ∧
    Account.Sign { sampleAccount with unlocked := true }
        (fun _ => .ok []) [97, 98, 99, 100] 42 =
      Account.Sign { sampleAccount with unlocked := true }
        (fun _ => .ok []) [97, 98, 99, 100] 0 ∧
    (42 : Nat) ≠ 0 :=
  ⟨rfl, rfl, by decide⟩

/-- C3 counterexample: the cached-public-key client's PublicKey(), evaluated
on a concrete client, issues no HTTP request at all — the list of requests
of the (first) call is empty — refuting "the first call issues a GET to the
endpoint root".  The entire fetch path is commented out in the source. -/
theorem cached_publicKey_no_network_cex :
    KeyServiceCached.PublicKeyWith
        ⟨"http://localhost:8080", List.replicate 48 7, 1⟩ =
      (.ok (List.replicate 48 7), []) := rfl

/-- C3 amended: the cached-public-key variant's PublicKey() performs no
network call and returns the stored key unchanged on every call; the
URL-only variant's PublicKey() issues one GET to the endpoint root on every
call (first and later alike, nothing is cached) and decodes the hex value of
the response's pk field into a 48-byte public key, failing on an empty
field. -/
theorem publicKey_fetch_behavior (ksC : KeyServiceCached) (ks : KeyService)
    (net : String → GetNetOutcome) (s : String) (bs : Bytes) :
    KeyServiceCached.PublicKeyWith ksC = (.ok ksC.publicKey, []) ∧
    (KeyService.PublicKeyWith ks net).2 = [ks.URL] ∧
    (net ks.URL = .pkField s → s ≠ "" → hexDecode s = some bs →
      bs.length = 48 → (KeyService.PublicKeyWith ks net).1 = .ok bs) ∧
    (net ks.URL = .pkField "" →
      (KeyService.PublicKeyWith ks net).1 = .error "missing public key") := by
  refine ⟨rfl, ?_, ?_, ?_⟩
  · rw [KeyService.PublicKeyWith.eq_def]
    rcases h : net ks.URL with e | _ | s0
    · rfl
    · rfl
    · dsimp only
      by_cases hs : s0 = ""
      · rw [if_pos hs]
      · rw [if_neg hs]
        rcases hd : hexDecode s0 with _ | bs0
        · rfl
        · rfl
  · intro h hs hd hl
    rw [KeyService.PublicKeyWith.eq_def, h]
    dsimp only
    rw [if_neg hs, hd]
    simp [blsPublicKeyFromBytes, hl]
  · intro h
    rw [KeyService.PublicKeyWith.eq_def, h]
    dsimp only
    rw [if_pos rfl]

theorem publicKey_fetch_behavior_witness :
    (KeyService.PublicKeyWith ⟨"http://localhost:8080"⟩
        (fun _ => .pkField (hexEncode (List.replicate 48 7)))).1 =
      .ok (List.replicate 48 7) :=
  (publicKey_fetch_behavior ⟨"http://other:1", [], 0⟩ ⟨"http://localhost:8080"⟩
      (fun _ => .pkField (hexEncode (List.replicate 48 7)))
      (hexEncode (List.replicate 48 7)) (List.replicate 48 7)).2.2.1
    rfl (by decide) (by decide) (by decide)

/-- C5: keyService.Sign (cached-public-key variant) marshals the body
containing the payload string and the domain, POSTs it exactly once to the
path "/<hex public key>", and fails — surfacing the failure directly, with
no retry — on a transport error, a malformed response, an empty sign field
("missing signature"), non-hex signature text, or signature bytes that are
not a valid BLS signature; a non-empty valid hex sign field decodes through
BLSSignatureFromBytes. -/
theorem keyService_sign_protocol (ks : KeyServiceCached)
    (net : PostRequest → SignNetOutcome) (payload : Bytes) (domain : Nat)
    (e s : String) (bs : Bytes) :
    ks.signRequest payload domain =
      { path := "/" ++ hexEncode ks.publicKey
        body := { payload := payload, domain := domain } } ∧
    (KeyServiceCached.SignWith ks net payload domain).2 =
      [ks.signRequest payload domain] ∧
    (net (ks.signRequest payload domain) = .transportError e →
      (KeyServiceCached.SignWith ks net payload domain).1 = .error e) ∧
    (net (ks.signRequest payload domain) = .malformedJSON →
      (KeyServiceCached.SignWith ks net payload domain).1 =
        .error "invalid character in JSON") ∧
    (net (ks.signRequest payload domain) = .signField "" →
      (KeyServiceCached.SignWith ks net payload domain).1 =
        .error "missing signature") ∧
    (net (ks.signRequest payload domain) = .signField s → s ≠ "" →
      hexDecode s = none →
      (KeyServiceCached.SignWith ks net payload domain).1 =
        .error "invalid hex") ∧
    (net (ks.signRequest payload domain) = .signField s → s ≠ "" →
      hexDecode s = some bs →
      (KeyServiceCached.SignWith ks net payload domain).1 =
        blsSignatureFromBytes bs) := by
  refine ⟨rfl, ?_, ?_, ?_, ?_, ?_, ?_⟩
  · rw [KeyServiceCached.SignWith.eq_def]
    rcases h : net (ks.signRequest payload domain) with e0 | _ | s0
    · rfl
    · rfl
    · dsimp only
      by_cases hs : s0 = ""
      · rw [if_pos hs]
      · rw [if_neg hs]
        rcases hd : hexDecode s0 with _ | bs0
        · rfl
        · rfl
  · intro h
    rw [KeyServiceCached.SignWith.eq_def, h]
  · intro h
    rw [KeyServiceCached.SignWith.eq_def, h]
  · intro h
    rw [KeyServiceCached.SignWith.eq_def, h]
    dsimp only
    rw [if_pos rfl]
  · intro h hs hd
    rw [KeyServiceCached.SignWith.eq_def, h]
    dsimp only
    rw [if_neg hs, hd]
  · intro h hs hd
    rw [KeyServiceCached.SignWith.eq_def, h]
    dsimp only
    rw [if_neg hs, hd]

theorem keyService_sign_protocol_witness :
    (KeyServiceCached.SignWith ⟨"http://localhost:8080", List.replicate 48 7, 1⟩
        (fun _ => .signField (hexEncode (List.replicate 96 1)))
        [97, 98, 99, 100] 42).1 = .ok (List.replicate 96 1) := by
  have h := (keyService_sign_protocol
      ⟨"http://localhost:8080", List.replicate 48 7, 1⟩
      (fun _ => .signField (hexEncode (List.replicate 96 1)))
      [97, 98, 99, 100] 42 "" (hexEncode (List.replicate 96 1))
      (List.replicate 96 1)).2.2.2.2.2.2 rfl (by decide) (by decide)
  rw [h]
  rfl

/-- After the identity, name, pubkey and version blocks succeed,
UnmarshalJSON reduces to the version gate followed by the keyService block. -/
theorem unmarshal_after_reads (a0 : Account) (v : JObj) (i nm : String)
    (pk : Bytes) (n : Nat)
    (hi : readAccountId v = .ok i) (hn : readName v = .ok nm)
    (hp : readPubkey v = .ok pk) (hv : readVersion v = .ok n) :
    Account.UnmarshalJSON a0 v =
      (match checkVersion n with
       | .error e => .error e
       | .ok enc =>
         match readKeyService v with
         | .error e => .error e
         | .ok ks =>
           .ok { a0 with
                 id := i, name := nm, publicKey := pk, version := n,
                 encryptor := some enc, keyService := some ks }) := by
  rw [Account.UnmarshalJSON.eq_def, hi, hn, hp, hv]

/-- C6: marshalling a well-formed account (canonical UUID, 48-byte public
key, version 4, absolute key-service URL) and unmarshalling the result
yields an account with identical id, name, public-key bytes and version. -/
theorem account_marshal_unmarshal_roundtrip (a : Account) (ks : KeyService)
    (hid : canonicalUuid a.id = true)
    (hlen : a.publicKey.length = 48)
    (hbytes : ∀ b ∈ a.publicKey, b < 256)
    (hver : a.version = 4)
    (hks : a.keyService = some ks)
    (habs : goUrlIsAbs ks.URL = true) :
    ∃ a', Account.UnmarshalJSON newAccount a.MarshalJSON = .ok a' ∧
      a'.id = a.id ∧ a'.name = a.name ∧ a'.publicKey = a.publicKey ∧
      a'.version = a.version := by
  have l5 : jLookup a.MarshalJSON "keyService" = some (.str ks.URL) := by
    show some (JValue.str ((a.keyService.map KeyService.URL).getD "")) = _
    rw [hks]
    rfl
  have h1 : readAccountId a.MarshalJSON = .ok a.id := by
    rw [readAccountId.eq_def]
    show (match uuidParse a.id with
          | some id => Except.ok id
          | none => Except.error "invalid UUID format") = _
    rw [uuidParse_canonical a.id hid]
  have h2 : readName a.MarshalJSON = .ok a.name := rfl
  have h3 : readPubkey a.MarshalJSON = .ok a.publicKey := by
    rw [readPubkey.eq_def]
    show (match hexDecode (hexEncode a.publicKey) with
          | some bs => blsPublicKeyFromBytes bs
          | none => Except.error "invalid hex") = _
    rw [hexDecode_hexEncode a.publicKey hbytes]
    show blsPublicKeyFromBytes a.publicKey = _
    rw [blsPublicKeyFromBytes, if_pos hlen]
  have h4 : readVersion a.MarshalJSON = .ok a.version := by
    rw [readVersion.eq_def]
    show Except.ok (goUintOfNum (a.version : ℚ)) = _
    rw [goUintOfNum_natCast]
  have h6 : readKeyService a.MarshalJSON = .ok ks := by
    rw [readKeyService.eq_def, l5]
    show newKeyService ks.URL = _
    rw [newKeyService, if_pos habs]
  have h5 : checkVersion a.version = .ok .keystorev4 := by
    rw [hver]
    rfl
  rw [unmarshal_after_reads newAccount a.MarshalJSON a.id a.name a.publicKey
    a.version h1 h2 h3 h4, h5]
  dsimp only
  rw [h6]
  exact ⟨_, rfl, rfl, rfl, rfl, rfl⟩

theorem account_marshal_unmarshal_roundtrip_witness :
    ∃ a', Account.UnmarshalJSON newAccount sampleAccount.MarshalJSON = .ok a' ∧
      a'.id = sampleAccount.id ∧ a'.name = sampleAccount.name ∧
      a'.publicKey = sampleAccount.publicKey ∧
      a'.version = sampleAccount.version :=
  account_marshal_unmarshal_roundtrip sampleAccount ⟨"http://localhost:8080"⟩
    (by decide) (by decide) (by decide) rfl rfl (by decide)

/-- C7 counterexample: the record fractionalVersionRecord carries the JSON
number 9/2 (= 4.5, exactly representable as float64) in its version field —
a number different from 4 — yet deserialization succeeds, because Go's
uint(float64) conversion truncates 4.5 to 4 before the == 4 comparison. -/
def fractionalVersionRecord : JObj :=
  [("uuid", .str "00010203-0405-0607-0809-0a0b0c0d0e0f"),
   ("name", .str "Account 1"),
   ("pubkey", .str (hexEncode (List.replicate 48 0))),
   ("version", .num (mkRat 9 2)),
   ("keyService", .str "http://localhost:8080")]

theorem version_fractional_accepted_cex :
    mkRat 9 2 ≠ (4 : ℚ) ∧
    jLookup fractionalVersionRecord "version" = some (.num (mkRat 9 2)) ∧
    ∃ a, Account.UnmarshalJSON newAccount fractionalVersionRecord = .ok a :=
  ⟨by decide, rfl, ⟨_, rfl⟩⟩

/-- C7 amended: for an account record whose version field is a JSON number
q whose truncation to uint differs from 4 (provided the identity, name and
pubkey blocks parse, so the version gate is reached), deserialization fails
with exactly "unsupported keystore version"; and every record that
deserializes successfully has version-truncation 4 and the keystorev4
encryptor selected. -/
theorem unmarshal_version_gate (a0 : Account) (v : JObj) (q : ℚ)
    (i nm : String) (pk : Bytes)
    (hv : jLookup v "version" = some (.num q))
    (hi : readAccountId v = .ok i) (hn : readName v = .ok nm)
    (hp : readPubkey v = .ok pk) :
    (goUintOfNum q ≠ 4 →
      Account.UnmarshalJSON a0 v = .error "unsupported keystore version") ∧
    (∀ a', Account.UnmarshalJSON a0 v = .ok a' →
      goUintOfNum q = 4 ∧ a'.version = 4 ∧
      a'.encryptor = some .keystorev4) := by
  have hver : readVersion v = .ok (goUintOfNum q) := by
    rw [readVersion.eq_def, hv]
  constructor
  · intro hne
    rw [unmarshal_after_reads a0 v i nm pk (goUintOfNum q) hi hn hp hver,
      checkVersion, if_neg hne]
  · intro a' h
    rw [unmarshal_after_reads a0 v i nm pk (goUintOfNum q) hi hn hp hver] at h
    by_cases h4 : goUintOfNum q = 4
    · rw [checkVersion, if_pos h4] at h
      rcases hks : readKeyService v with e | ks0
      · rw [hks] at h
        exact Except.noConfusion h
      · rw [hks] at h
        injection h with h
        subst h
        exact ⟨h4, h4, rfl⟩
    · rw [checkVersion, if_neg h4] at h
      exact Except.noConfusion h

/-- A record with integer version 3, exercising the failure side of the
version gate. -/
def version3Record : JObj :=
  [("uuid", .str "00010203-0405-0607-0809-0a0b0c0d0e0f"),
   ("name", .str "Account 1"),
   ("pubkey", .str (hexEncode (List.replicate 48 0))),
   ("version", .num 3),
   ("keyService", .str "http://localhost:8080")]

theorem unmarshal_version_gate_witness :
    Account.UnmarshalJSON newAccount version3Record =
      .error "unsupported keystore version" :=
  (unmarshal_version_gate newAccount version3Record 3
      "00010203-0405-0607-0809-0a0b0c0d0e0f" "Account 1"
      (List.replicate 48 0) rfl rfl rfl rfl).1 (by decide)

/-! #### Error-message inventories of the field blocks, used to show that
"account ID missing" can only originate in the identity block. -/

theorem readName_error_msgs (v : JObj) (e : String) (h : readName v = .error e) :
    e = "account name invalid" ∨ e = "account name missing" := by
  rw [readName.eq_def] at h
  repeat' split at h
  all_goals first
    | exact Except.noConfusion h
    | (injection h with h; subst h; simp)

theorem readPubkey_error_msgs (v : JObj) (e : String)
    (h : readPubkey v = .error e) :
    e = "account pubkey invalid" ∨ e = "account pubkey missing" ∨
    e = "invalid hex" ∨ e = "public key must be 48 bytes" := by
  rw [readPubkey.eq_def] at h
  repeat' first
    | split at h
    | rw [blsPublicKeyFromBytes] at h
  all_goals first
    | exact Except.noConfusion h
    | (injection h with h; subst h; simp)

theorem readVersion_error_msgs (v : JObj) (e : String)
    (h : readVersion v = .error e) :
    e = "account version invalid" ∨ e = "account version missing" := by
  rw [readVersion.eq_def] at h
  repeat' split at h
  all_goals first
    | exact Except.noConfusion h
    | (injection h with h; subst h; simp)

theorem checkVersion_error_msg (n : Nat) (e : String)
    (h : checkVersion n = .error e) : e = "unsupported keystore version" := by
  rw [checkVersion] at h
  split at h
  · exact Except.noConfusion h
  · injection h with h
    exact h.symm

theorem readKeyService_error_msgs (v : JObj) (e : String)
    (h : readKeyService v = .error e) :
    e = "account keyService invalid" ∨ e = "account keyService missing" ∨
    ∃ u, e = "keyService URL \x27" ++ u ++ "\x27 is not absolute" := by
  rw [readKeyService.eq_def] at h
  repeat' first
    | split at h
    | rw [newKeyService] at h
  all_goals first
    | exact Except.noConfusion h
    | (injection h with h; subst h; simp)
    | (injection h with h; subst h; exact Or.inr (Or.inr ⟨_, rfl⟩))

theorem keyService_url_error_ne_id_missing (u : String) :
    "keyService URL \x27" ++ u ++ "\x27 is not absolute" ≠
      "account ID missing" := by
  intro h
  have hl := congrArg String.length h
  rw [String.length_append, String.length_append] at hl
  have h1 : ("keyService URL \x27" : String).length = 16 := rfl
  have h2 : ("\x27 is not absolute" : String).length = 17 := rfl
  have h3 : ("account ID missing" : String).length = 18 := rfl
  omega

/-- The identity block reports "account ID missing" exactly when the record
has neither a "uuid" key nor an "id" key. -/
theorem readAccountId_missing (w : JObj)
    (h : readAccountId w = .error "account ID missing") :
    jLookup w "uuid" = none ∧ jLookup w "id" = none := by
  rw [readAccountId.eq_def] at h
  rcases hu : jLookup w "uuid" with _ | val
  · rw [hu] at h
    dsimp only at h
    rcases hi : jLookup w "id" with _ | val2
    · exact ⟨rfl, rfl⟩
    · exfalso
      rw [hi] at h
      dsimp only at h
      rcases val2 with s | q | b0 | _
      · dsimp only at h
        rcases hp : uuidParse s with _ | u
        · rw [hp] at h
          injection h with h
          exact absurd h (by decide)
        · rw [hp] at h
          exact Except.noConfusion h
      · injection h with h
        exact absurd h (by decide)
      · injection h with h
        exact absurd h (by decide)
      · injection h with h
        exact absurd h (by decide)
  · exfalso
    rw [hu] at h
    dsimp only at h
    rcases val with s | q | b0 | _
    · dsimp only at h
      rcases hp : uuidParse s with _ | u
      · rw [hp] at h
        injection h with h
        exact absurd h (by decide)
      · rw [hp] at h
        exact Except.noConfusion h
    · injection h with h
      exact absurd h (by decide)
    · injection h with h
      exact absurd h (by decide)
    · injection h with h
      exact absurd h (by decide)

/-- "account ID missing" can only be reported by the identity block: every
other block's error messages differ from it. -/
theorem unmarshal_id_missing (b : Account) (w : JObj)
    (h : Account.UnmarshalJSON b w = .error "account ID missing") :
    jLookup w "uuid" = none ∧ jLookup w "id" = none := by
  rw [Account.UnmarshalJSON.eq_def] at h
  rcases hi : readAccountId w with e | i
  · rw [hi] at h
    dsimp only at h
    injection h with h
    subst h
    exact readAccountId_missing w hi
  · rw [hi] at h
    dsimp only at h
    exfalso
    rcases hn : readName w with e | nm
    · rw [hn] at h
      dsimp only at h
      injection h with h
      rcases readName_error_msgs w e hn with h2 | h2 <;> subst h2 <;>
        exact absurd h (by decide)
    · rw [hn] at h
      dsimp only at h
      rcases hp : readPubkey w with e | pk
      · rw [hp] at h
        dsimp only at h
        injection h with h
        rcases readPubkey_error_msgs w e hp with h2 | h2 | h2 | h2 <;>
          subst h2 <;> exact absurd h (by decide)
      · rw [hp] at h
        dsimp only at h
        rcases hv : readVersion w with e | n
        · rw [hv] at h
          dsimp only at h
          injection h with h
          rcases readVersion_error_msgs w e hv with h2 | h2 <;> subst h2 <;>
            exact absurd h (by decide)
        · rw [hv] at h
          dsimp only at h
          rcases hc : checkVersion n with e | enc
          · rw [hc] at h
            dsimp only at h
            injection h with h
            have h2 := checkVersion_error_msg n e hc
            subst h2
            exact absurd h (by decide)
          · rw [hc] at h
            dsimp only at h
            rcases hk : readKeyService w with e | ks
            · rw [hk] at h
              dsimp only at h
              injection h with h
              rcases readKeyService_error_msgs w e hk with h2 | h2 | ⟨u, h2⟩ <;>
                subst h2
              · exact absurd h (by decide)
              · exact absurd h (by decide)
              · exact keyService_url_error_ne_id_missing u h
            · rw [hk] at h
              dsimp only at h
              exact Except.noConfusion h

/-- C10: a record without a "uuid" key whose string "id" key holds a
parseable UUID is accepted by the legacy branch — the identity block
resolves to that UUID, and (the remaining blocks being well-formed)
UnmarshalJSON succeeds with the account's id set from the "id" field;
and "account ID missing" is reported only when both "uuid" and "id" are
absent. -/
theorem legacy_id_field_accepted (a0 : Account) (v : JObj) (s u nm : String)
    (pk : Bytes) (ks : KeyService)
    (hnouuid : jLookup v "uuid" = none)
    (hid : jLookup v "id" = some (.str s))
    (hparse : uuidParse s = some u)
    (hn : readName v = .ok nm) (hp : readPubkey v = .ok pk)
    (hv : readVersion v = .ok 4) (hk : readKeyService v = .ok ks) :
    readAccountId v = .ok u ∧
    Account.UnmarshalJSON a0 v =
      .ok { a0 with
            id := u, name := nm, publicKey := pk, version := 4,
            encryptor := some .keystorev4, keyService := some ks } ∧
    (∀ b w, Account.UnmarshalJSON b w = .error "account ID missing" →
      jLookup w "uuid" = none ∧ jLookup w "id" = none) := by
  have hi : readAccountId v = .ok u := by
    rw [readAccountId.eq_def, hnouuid]
    dsimp only
    rw [hid]
    dsimp only
    rw [hparse]
  refine ⟨hi, ?_, fun b w h => unmarshal_id_missing b w h⟩
  rw [unmarshal_after_reads a0 v u nm pk 4 hi hn hp hv,
    show checkVersion 4 = .ok .keystorev4 from rfl]
  dsimp only
  rw [hk]

/-- A record carrying only the legacy "id" identity key. -/
def legacyIdRecord : JObj :=
  [("id", .str "00010203-0405-0607-0809-0a0b0c0d0e0f"),
   ("name", .str "Account 1"),
   ("pubkey", .str (hexEncode (List.replicate 48 0))),
   ("version", .num 4),
   ("keyService", .str "http://localhost:8080")]

theorem legacy_id_field_accepted_witness :
    Account.UnmarshalJSON newAccount legacyIdRecord =
      .ok { newAccount with
            id := "00010203-0405-0607-0809-0a0b0c0d0e0f"
            name := "Account 1"
            publicKey := List.replicate 48 0
            version := 4
            encryptor := some .keystorev4
            keyService := some ⟨"http://localhost:8080"⟩ } :=
  (legacy_id_field_accepted newAccount legacyIdRecord
      "00010203-0405-0607-0809-0a0b0c0d0e0f"
      "00010203-0405-0607-0809-0a0b0c0d0e0f" "Account 1"
      (List.replicate 48 0) ⟨"http://localhost:8080"⟩
      rfl rfl rfl rfl rfl rfl rfl).2.1

end Mpc
